import Mathlib

/-!
# Verification of `scripts/generate_progress_table.py`

A shallow embedding of the iP progress-dashboard generator.  The script is a
linear batch transform: it loads a task-definition CSV and a student-progress
CSV, filters tasks by a time window, classifies each (task, student) cell into
a colored badge, and emits a markdown table fragment.

Modelling conventions:

* CSV parsing itself (the `csv` module) is an external collaborator: the two
  inputs arrive as already-split rows of strings.  A definition row is a record
  of its five named columns; a progress table is a header list plus raw rows.
* `datetime` values are modelled as civil wall-clock timestamps converted to a
  minute count via the proleptic Gregorian calendar (Python's
  `date.toordinal`).  The two sides of every aware comparison in the script
  carry DIFFERENT offsets: `datetime.now(tz)` goes through `fromutc` and gets
  the modern Asia/Singapore offset +08:00, while `due_date.replace(tzinfo=tz)`
  attaches the pytz zone object's default info — its first transition, LMT
  +6:55 (pytz rounds +6:55:25 to the minute).  Python orders aware datetimes
  by UTC instant (wall clock minus offset); `awareToUtc` makes that explicit,
  so the due side sits 65 minutes later in absolute time than its wall-clock
  reading suggests.  The current instant is threaded as the wall-clock minute
  count `now` read in the +08:00 zone (the injectable clock of the design
  notes).
* `datetime.strptime(s, '%Y-%m-%d %H:%M')` is modelled after CPython's
  `_strptime` regex table: `%Y` is exactly four digits, `%m`/`%d`/`%H`/`%M`
  are the one-or-two digit alternations of that table, a whitespace run in the
  format matches one or more whitespace characters, the match must consume the
  whole string, and the resulting field values must form a valid `datetime`
  (day in range for the month, year at least 1).
* Exceptions are modelled with `Except String`: a `.error` result means the
  process dies before the output file is written.
-/

/-- Python whitespace (`str.strip`, regex `\s`), ASCII fragment. -/
def isPySpace (c : Char) : Bool :=
  c = ' ' || c = '\t' || c = '\n' || c = '\x0d' || c = '\x0b' || c = '\x0c'

/-- Python `str.strip()`: drop whitespace from both ends. -/
def pyStrip (s : String) : String :=
  ⟨(s.data.dropWhile isPySpace).reverse.dropWhile isPySpace |>.reverse⟩

/-- Python `str.lower()`, ASCII fragment. -/
def pyLower (s : String) : String :=
  ⟨s.data.map Char.toLower⟩

/-- Value of an ASCII digit. -/
def digitVal (c : Char) : Nat := c.toNat - 48

/-- Digit-or-underscore strings accepted by Python `int`: nonempty, digits with
single underscores strictly between digits. -/
def pyIntDigitsOk : List Char → Bool
  | [] => false
  | [c] => c.isDigit
  | c :: d :: rest =>
    c.isDigit && ((d = '_' && (match rest with
                               | [] => false
                               | e :: _ => e.isDigit) && pyIntDigitsOk rest)
                  || (d.isDigit && pyIntDigitsOk (d :: rest)))

/-- Numeric value of a digit/underscore string (underscores skipped). -/
def digitsToNat (cs : List Char) : Nat :=
  cs.foldl (fun acc c => if c.isDigit then acc * 10 + digitVal c else acc) 0

/-- Python `int(s)` on an already-stripped string: optional sign, then digits
with optional single underscores between digits.  `none` models `ValueError`. -/
def pyInt (s : String) : Option Int :=
  match s.data with
  | '+' :: rest => if pyIntDigitsOk rest then some (digitsToNat rest) else none
  | '-' :: rest => if pyIntDigitsOk rest then some (-(digitsToNat rest : Int)) else none
  | rest => if pyIntDigitsOk rest then some (digitsToNat rest) else none

/-- A civil wall-clock timestamp, minute precision (the script never parses
seconds). -/
structure DateTime where
  year : Nat
  month : Nat
  day : Nat
  hour : Nat
  minute : Nat
deriving Repr, DecidableEq

/-- Gregorian leap year (as in Python `calendar.isleap`). -/
def isLeap (y : Nat) : Bool :=
  (y % 4 = 0 && y % 100 ≠ 0) || y % 400 = 0

/-- Days in a month of a given year. -/
def daysInMonth (y m : Nat) : Nat :=
  if m = 2 then (if isLeap y then 29 else 28)
  else if m = 4 || m = 6 || m = 9 || m = 11 then 30
  else 31

/-- Days in the given year strictly before month `m`. -/
def daysBeforeMonth (y m : Nat) : Nat :=
  (List.range m).foldl (fun acc k => if 1 ≤ k then acc + daysInMonth y k else acc) 0

/-- Days strictly before January 1 of year `y` counted from the proleptic
Gregorian epoch (year 1), as in Python `date.toordinal`. -/
def daysBeforeYear (y : Nat) : Nat :=
  365 * (y - 1) + ((y - 1) / 4 - (y - 1) / 100) + (y - 1) / 400

/-- A `DateTime` as a total wall-clock minute count; `timedelta` addition
acts on this value, and aware comparison subtracts each side's own attached
offset from it (see `awareToUtc`). -/
def toMin (dt : DateTime) : Nat :=
  ((daysBeforeYear dt.year + daysBeforeMonth dt.year dt.month + (dt.day - 1)) * 24
      + dt.hour) * 60 + dt.minute

/-- `_strptime` `%Y`: exactly four digits. -/
def matchYear : List Char → Option (Nat × List Char)
  | a :: b :: c :: d :: rest =>
    if a.isDigit && b.isDigit && c.isDigit && d.isDigit then
      some (((digitVal a * 10 + digitVal b) * 10 + digitVal c) * 10 + digitVal d, rest)
    else none
  | _ => none

/-- `_strptime` `%m`: ordered alternation `1[0-2] | 0[1-9] | [1-9]`. -/
def matchMonth : List Char → Option (Nat × List Char)
  | c :: d :: rest =>
    if c = '1' && ('0' ≤ d && d ≤ '2') then some (10 + digitVal d, rest)
    else if c = '0' && ('1' ≤ d && d ≤ '9') then some (digitVal d, rest)
    else if '1' ≤ c && c ≤ '9' then some (digitVal c, d :: rest)
    else none
  | [c] => if '1' ≤ c && c ≤ '9' then some (digitVal c, []) else none
  | [] => none

/-- `_strptime` `%d`: ordered alternation `3[01] | [1-2]\d | 0[1-9] | [1-9]`. -/
def matchDay : List Char → Option (Nat × List Char)
  | c :: d :: rest =>
    if c = '3' && ('0' ≤ d && d ≤ '1') then some (30 + digitVal d, rest)
    else if ('1' ≤ c && c ≤ '2') && d.isDigit then some (digitVal c * 10 + digitVal d, rest)
    else if c = '0' && ('1' ≤ d && d ≤ '9') then some (digitVal d, rest)
    else if '1' ≤ c && c ≤ '9' then some (digitVal c, d :: rest)
    else none
  | [c] => if '1' ≤ c && c ≤ '9' then some (digitVal c, []) else none
  | [] => none

/-- `_strptime` `%H`: ordered alternation `2[0-3] | [0-1]\d | \d`. -/
def matchHour : List Char → Option (Nat × List Char)
  | c :: d :: rest =>
    if c = '2' && ('0' ≤ d && d ≤ '3') then some (20 + digitVal d, rest)
    else if ('0' ≤ c && c ≤ '1') && d.isDigit then some (digitVal c * 10 + digitVal d, rest)
    else if c.isDigit then some (digitVal c, d :: rest)
    else none
  | [c] => if c.isDigit then some (digitVal c, []) else none
  | [] => none

/-- `_strptime` `%M`: ordered alternation `[0-5]\d | \d`. -/
def matchMinute : List Char → Option (Nat × List Char)
  | c :: d :: rest =>
    if ('0' ≤ c && c ≤ '5') && d.isDigit then some (digitVal c * 10 + digitVal d, rest)
    else if c.isDigit then some (digitVal c, d :: rest)
    else none
  | [c] => if c.isDigit then some (digitVal c, []) else none
  | [] => none

/-- A literal character of the compiled format. -/
def matchLit (ch : Char) : List Char → Option (List Char)
  | c :: rest => if c = ch then some rest else none
  | [] => none

/-- A whitespace run in the format compiles to `\s+`. -/
def matchWs : List Char → Option (List Char)
  | c :: rest => if isPySpace c then some (rest.dropWhile isPySpace) else none
  | [] => none

/-- `datetime.strptime(s, '%Y-%m-%d %H:%M')`: structural match of the whole
string, then the `datetime` constructor's range validation.  `none` models
`ValueError`. -/
def parseDateTime (s : String) : Option DateTime := do
  let (y, r1) ← matchYear s.data
  let r2 ← matchLit '-' r1
  let (mo, r3) ← matchMonth r2
  let r4 ← matchLit '-' r3
  let (d, r5) ← matchDay r4
  let r6 ← matchWs r5
  let (h, r7) ← matchHour r6
  let r8 ← matchLit ':' r7
  let (mi, r9) ← matchMinute r8
  match r9 with
  | _ :: _ => none
  | [] =>
    if 1 ≤ y && 1 ≤ d && d ≤ daysInMonth y mo then
      some ⟨y, mo, d, h, mi⟩
    else none


/-! ## Data model -/

/-- One row of `data/task_definitions.csv`, as the five named columns the
script reads (`row['Task Name']`, …). -/
structure DefRow where
  taskName : String
  taskType : String
  isOptional : String
  dueDate : String
  weekNumber : String
deriving Repr, DecidableEq

/-- The per-task metadata dictionary value built by `read_task_definitions`. -/
structure TaskInfo where
  type : String
  is_optional : Bool
  due_date : DateTime
  week_number : Int
deriving Repr, DecidableEq

/-- Python `dict` assignment `tasks[k] = v`: overwrite in place if the key
exists (keeping its position in insertion order), else append. -/
def dictInsert (l : List (String × TaskInfo)) (k : String) (v : TaskInfo) :
    List (String × TaskInfo) :=
  if l.any (fun p => p.1 = k) then
    l.map (fun p => if p.1 = k then (k, v) else p)
  else l ++ [(k, v)]

/-- Python `tasks[k]` / `tasks.get(k)` on the definitions dictionary. -/
def dictLookup : List (String × TaskInfo) → String → Option TaskInfo
  | [], _ => none
  | p :: rest, k => if p.1 = k then some p.2 else dictLookup rest k

/-- Python `k in tasks`. -/
def dictContains (l : List (String × TaskInfo)) (k : String) : Bool :=
  l.any (fun p => p.1 = k)

/-- `read_task_definitions`, one row: strip every field, parse the due date
(`ValueError` aborts), parse the week number (`ValueError` aborts), then
assign into the dictionary. -/
def readDefRow (acc : List (String × TaskInfo)) (row : DefRow) :
    Except String (List (String × TaskInfo)) :=
  match parseDateTime (pyStrip row.dueDate) with
  | none => .error "ValueError: time data does not match format"
  | some due =>
    match pyInt (pyStrip row.weekNumber) with
    | none => .error "ValueError: invalid literal for int with base 10"
    | some wk =>
      .ok (dictInsert acc (pyStrip row.taskName)
        ⟨pyStrip row.taskType, pyLower (pyStrip row.isOptional) = "true", due, wk⟩)

/-- `read_task_definitions`: fold the rows into the task dictionary; the first
parse failure aborts the whole load. -/
def read_task_definitions (rows : List DefRow) :
    Except String (List (String × TaskInfo)) :=
  rows.foldlM readDefRow []

/-- A loaded student record: `csv.DictReader` with explicit `fieldnames` pairs
each (trimmed) header with the cell in that position; a short row leaves the
trailing keys paired with `None` (`restval`).  Cells beyond the headers go to
the non-string `restkey` and are never consulted by a string lookup, so they
are not represented. -/
abbrev StudentRecord := List (String × Option String)

/-- Pair trimmed headers with one raw row (`dict(zip(fieldnames, row))` with
`restval=None`). -/
def zipRecord : List String → List String → StudentRecord
  | [], _ => []
  | h :: hs, [] => (h, none) :: zipRecord hs []
  | h :: hs, v :: vs => (h, some v) :: zipRecord hs vs

/-- Python `dict` lookup on a record: with duplicate headers the later
position wins, so take the last matching pair.  `none` models `KeyError`. -/
def recordLookup : StudentRecord → String → Option (Option String)
  | [], _ => none
  | p :: rest, k =>
    match recordLookup rest k with
    | some v => some v
    | none => if p.1 = k then some p.2 else none

/-- Python `k in student`. -/
def recordHasKey (s : StudentRecord) (k : String) : Bool :=
  s.any (fun p => p.1 = k)

/-- `student[k]` where the key is known to be present. -/
def recordGet (s : StudentRecord) (k : String) : Option String :=
  match recordLookup s k with
  | some v => v
  | none => none

/-- `student.keys()`: each key once. -/
def recordKeys (s : StudentRecord) : List String :=
  (s.map Prod.fst).dedup

/-- `read_student_progress`: trim the header names, then read every data row
against the cleaned headers, preserving row order. -/
def read_student_progress (headers : List String) (rows : List (List String)) :
    List StudentRecord :=
  rows.map (zipRecord (headers.map pyStrip))

/-! ## Visibility and badge policy -/

/-- The UTC offset, in minutes, that `due_date.replace(tzinfo=pytz.timezone(
'Asia/Singapore'))` attaches: the pytz zone object's default info is its first
transition, LMT +6:55 (pytz rounds the tz database's +6:55:25 to the minute). -/
def lmtOffset : Nat := 6 * 60 + 55

/-- The UTC offset, in minutes, carried by
`datetime.now(pytz.timezone('Asia/Singapore'))`: the modern +08:00. -/
def sgtOffset : Nat := 8 * 60

/-- The key Python uses to order aware datetimes: the UTC instant, wall-clock
minutes minus the attached offset. -/
def awareToUtc (wallMin offMin : Nat) : Int := (wallMin : Int) - (offMin : Int)

/-- `should_show_task`: the aware comparison `due_date <= now + timedelta(days=5)`,
with the due side carrying the attached LMT offset and the now side (plus the
timedelta, which keeps its tzinfo) carrying +08:00. -/
def should_show_task (now : Nat) (task_info : TaskInfo) : Bool :=
  awareToUtc (toMin task_info.due_date) lmtOffset ≤ awareToUtc (now + 5 * 1440) sgtOffset

/-- The `is_overdue` local of `get_badge_html`: the aware comparison
`now > due_date`, offsets as in `should_show_task`. -/
def is_overdue (now : Nat) (task_info : TaskInfo) : Bool :=
  awareToUtc now sgtOffset > awareToUtc (toMin task_info.due_date) lmtOffset

/-- Marker normalization from `get_badge_html`:
`str(is_completed).strip() if is_completed is not None else '0'`. -/
def normalizeMarker (m : Option String) : String :=
  match m with
  | none => "0"
  | some s => pyStrip s

/-- The `badge_class` local of `get_badge_html`. -/
def badge_class (now : Nat) (is_completed : Option String) (task_info : TaskInfo) :
    String :=
  if normalizeMarker is_completed = "1" then
    if task_info.is_optional then "bg-info" else "bg-success"
  else
    if is_overdue now task_info then "bg-danger"
    else if task_info.is_optional then "bg-secondary" else "bg-dark"

/-- The `text` local of `get_badge_html`. -/
def badge_text (task_name : String) (is_completed : Option String) : String :=
  if normalizeMarker is_completed = "1" then task_name else "!" ++ task_name

/-- The badge span markup. -/
def mkSpan (cls text : String) : String :=
  "<span class=\"badge " ++ cls ++ " me-1\">" ++ text ++ "</span>"

/-- `get_badge_html`. -/
def get_badge_html (now : Nat) (task_name : String) (is_completed : Option String)
    (task_info : TaskInfo) : String :=
  mkSpan (badge_class now is_completed task_info) (badge_text task_name is_completed)

/-! ## Rendering -/

/-- The three per-category task lists built by the first pass of
`generate_progress_table`. -/
structure Groups where
  weekly : List (String × TaskInfo)
  increment : List (String × TaskInfo)
  admin : List (String × TaskInfo)
deriving Repr, DecidableEq

/-- One iteration of the first pass: a definition row lands in its category
list when its (trimmed) name is a key of the dictionary and the task passes
the visibility filter; an unrecognized category matches no branch. -/
def collectStep (now : Nat) (tasks : List (String × TaskInfo)) (g : Groups)
    (row : DefRow) : Groups :=
  let name := pyStrip row.taskName
  match dictLookup tasks name with
  | none => g
  | some info =>
    if should_show_task now info then
      if info.type = "Weekly" then ⟨g.weekly ++ [(name, info)], g.increment, g.admin⟩
      else if info.type = "Increment" then ⟨g.weekly, g.increment ++ [(name, info)], g.admin⟩
      else if info.type = "Admin" then ⟨g.weekly, g.increment, g.admin ++ [(name, info)]⟩
      else g
    else g

/-- First pass of `generate_progress_table` over the definition rows (the
script re-reads `data/task_definitions.csv`; the same rows are passed here). -/
def collectTasks (now : Nat) (defRows : List DefRow) (tasks : List (String × TaskInfo)) :
    Groups :=
  defRows.foldl (collectStep now tasks) ⟨[], [], []⟩

/-- One per-category badge loop of `generate_progress_table`: a badge is
emitted only when the task name is a key of the student record. -/
def rowBadges (now : Nat) (taskList : List (String × TaskInfo)) (s : StudentRecord) :
    List String :=
  taskList.foldl
    (fun acc p =>
      if recordHasKey s p.1 then acc ++ [get_badge_html now p.1 (recordGet s p.1) p.2]
      else acc)
    []

/-- Python `str(x)` on a cell value inside an f-string (`None` prints as
`None`). -/
def optValToStr : Option String → String
  | some s => s
  | none => "None"

/-- One student row: `student['Student ID']` (a `KeyError` kills the run),
then the three badge runs joined by the column delimiter. -/
def renderRow (now : Nat) (g : Groups) (s : StudentRecord) : Except String String :=
  match recordLookup s "Student ID" with
  | none => .error "KeyError: Student ID"
  | some v =>
    .ok (optValToStr v ++ "|" ++ String.join (rowBadges now g.weekly s) ++ "|"
          ++ String.join (rowBadges now g.increment s) ++ "|"
          ++ String.join (rowBadges now g.admin s))

/-- The fixed header block of the output (dash runs of 53, 101, 101 and 75). -/
def headerStr : String :=
  "%%[This page was ==last updated on **\x7b\x7b timestamp \x7d\x7d**==]%%    \n\n"
    ++ "<tooltip content=\"NUSNET (partial)\">Student</tooltip>|"
    ++ "<tooltip content=\"i.e., weeks in which some code was committed to the repo\">Weekly progress</tooltip>|"
    ++ "<tooltip content=\"i.e., iP increments as indicated by the git tags in your fork\">Increments</tooltip>|"
    ++ "<tooltip content=\"i.e., other iP-related admin tasks\">Admin tasks</tooltip>\n"
    ++ String.mk (List.replicate 53 '-') ++ "|" ++ String.mk (List.replicate 101 '-')
    ++ "|" ++ String.mk (List.replicate 101 '-') ++ "|" ++ String.mk (List.replicate 75 '-')

/-- The student loop of `generate_progress_table`: one rendered line per
record, in input order; an exception in any iteration kills the run. -/
def renderRows (now : Nat) (g : Groups) : List StudentRecord → Except String (List String)
  | [] => .ok []
  | s :: rest => do
    let r ← renderRow now g s
    let rs ← renderRows now g rest
    .ok (r :: rs)

/-- `generate_progress_table`: header line, then one line per student in input
order, joined by newlines. -/
def generate_progress_table (now : Nat) (defRows : List DefRow)
    (tasks : List (String × TaskInfo)) (students : List StudentRecord) :
    Except String String :=
  let g := collectTasks now defRows tasks
  (renderRows now g students).map
    (fun rows => String.intercalate "\n" (headerStr :: rows))

/-- The undefined-task diagnostic of `main`: when at least one record was
loaded, sort the first record's keys and keep those that are neither defined
tasks nor identity columns.  Each returned name `n` is printed inside a
warning line naming the task. -/
def computeWarnings (tasks : List (String × TaskInfo)) (students : List StudentRecord) :
    List String :=
  match students with
  | [] => []
  | s :: _ =>
    (List.insertionSort (fun a b => a ≤ b) (recordKeys s)).filter
      (fun n => !dictContains tasks n && n ≠ "Full Name" && n ≠ "Student ID")

/-- The `main` entry point (named `mainRun` here): load the definitions (abort on the first malformed row, before any
output exists), load the student records, emit the diagnostics, render, and
only then write the document.  The `.ok` payload is (warnings, written file
content); an `.error` means the process died with no output file. -/
def mainRun (now : Nat) (defRows : List DefRow) (headers : List String)
    (progRows : List (List String)) : Except String (List String × String) := do
  let tasks ← read_task_definitions defRows
  let students := read_student_progress headers progRows
  let warnings := computeWarnings tasks students
  let doc ← generate_progress_table now defRows tasks students
  .ok (warnings, doc)

/-! ## Specification-side definitions

These transcribe the wording of the specification's visibility / badge
policy, to be compared with the code-derived functions above, plus a few
derived forms used only in theorem statements. -/

/-- Is an `Except` a success? -/
def exceptIsOk {ε α : Type} : Except ε α → Bool
  | .ok _ => true
  | .error _ => false

/-- Modelled from the spec: the claimed visibility predicate,
`due_at <= now + 7 days` with an inclusive boundary. -/
def specVisible7 (now : Nat) (info : TaskInfo) : Bool :=
  toMin info.due_date ≤ now + 7 * 1440

/-- The five badge styles of the specification's data model. -/
inductive BadgeStyle where
  | completedOptional
  | completedRequired
  | overdue
  | pendingOptional
  | pendingRequired
deriving Repr, DecidableEq

/-- Modelled from the spec: the badge classification table, evaluated
top-to-bottom, first match wins. -/
def specBadgeStyle (completed opt over : Bool) : BadgeStyle :=
  if completed then
    if opt then .completedOptional else .completedRequired
  else if over then .overdue
  else if opt then .pendingOptional else .pendingRequired

/-- The CSS class rendering each badge style (the code's color vocabulary). -/
def styleClass : BadgeStyle → String
  | .completedOptional => "bg-info"
  | .completedRequired => "bg-success"
  | .overdue => "bg-danger"
  | .pendingOptional => "bg-secondary"
  | .pendingRequired => "bg-dark"

/-- Modelled from the spec: completed tasks render the bare name; a
not-completed task's label is prefixed with the strike marker. -/
def specLabel (completed : Bool) (name : String) : String :=
  if completed then name else "!" ++ name

/-- The single-category selector underlying the first pass: a definition row
contributes to category `t` exactly when its trimmed name is defined, the
task is visible, and its type equals `t`. -/
def pickType (now : Nat) (tasks : List (String × TaskInfo)) (t : String)
    (row : DefRow) : Option (String × TaskInfo) :=
  match dictLookup tasks (pyStrip row.taskName) with
  | none => none
  | some info =>
    if should_show_task now info && info.type = t then some (pyStrip row.taskName, info)
    else none

/-- The task names that receive a badge in a given student's row, in order. -/
def badgedTaskNames (taskList : List (String × TaskInfo)) (s : StudentRecord) :
    List String :=
  (taskList.filter (fun p => recordHasKey s p.1)).map Prod.fst

/-- The total form of `renderRow`, meaningful when the identity key exists. -/
def renderRowTotal (now : Nat) (g : Groups) (s : StudentRecord) : String :=
  optValToStr (recordGet s "Student ID") ++ "|" ++ String.join (rowBadges now g.weekly s)
    ++ "|" ++ String.join (rowBadges now g.increment s) ++ "|"
    ++ String.join (rowBadges now g.admin s)

/-! ## Helper lemmas -/

theorem recordHasKey_cons (p : String × Option String) (t : StudentRecord) (k : String) :
    recordHasKey (p :: t) k = (decide (p.1 = k) || recordHasKey t k) := rfl

theorem recordLookup_isSome (s : StudentRecord) (k : String) :
    (recordLookup s k).isSome = recordHasKey s k := by
  induction s with
  | nil => rfl
  | cons p rest ih =>
    rw [recordLookup, recordHasKey_cons]
    cases hr : recordLookup rest k with
    | some v =>
      have hh : recordHasKey rest k = true := by rw [← ih, hr]; rfl
      simp [hh]
    | none =>
      have hh : recordHasKey rest k = false := by rw [← ih, hr]; rfl
      by_cases hp : p.1 = k <;> simp [hp, hh]

theorem recordLookup_of_hasKey {s : StudentRecord} {k : String}
    (h : recordHasKey s k = true) : recordLookup s k = some (recordGet s k) := by
  cases hl : recordLookup s k with
  | some v => simp [recordGet, hl]
  | none =>
    have := recordLookup_isSome s k
    rw [hl, h] at this
    simp at this

theorem zipRecord_hasKey (hs : List String) (vs : List String) (k : String) :
    recordHasKey (zipRecord hs vs) k = hs.any (fun h => h = k) := by
  induction hs generalizing vs with
  | nil => cases vs <;> rfl
  | cons h rest ih =>
    cases vs with
    | nil =>
      rw [zipRecord, recordHasKey_cons, ih []]
      rfl
    | cons v vs =>
      rw [zipRecord, recordHasKey_cons, ih vs]
      rfl

theorem rowBadges_aux (now : Nat) (tl : List (String × TaskInfo)) (s : StudentRecord)
    (acc : List String) :
    tl.foldl
      (fun acc p =>
        if recordHasKey s p.1 then acc ++ [get_badge_html now p.1 (recordGet s p.1) p.2]
        else acc) acc
    = acc ++ (tl.filter (fun p => recordHasKey s p.1)).map
        (fun p => get_badge_html now p.1 (recordGet s p.1) p.2) := by
  induction tl generalizing acc with
  | nil => simp
  | cons p rest ih =>
    by_cases hp : recordHasKey s p.1 <;>
      simp [List.foldl_cons, List.filter_cons, hp, ih, List.append_assoc]

theorem rowBadges_eq (now : Nat) (tl : List (String × TaskInfo)) (s : StudentRecord) :
    rowBadges now tl s = (tl.filter (fun p => recordHasKey s p.1)).map
      (fun p => get_badge_html now p.1 (recordGet s p.1) p.2) := by
  simpa using rowBadges_aux now tl s []

theorem collect_aux (now : Nat) (tasks : List (String × TaskInfo)) (rows : List DefRow)
    (g : Groups) :
    rows.foldl (collectStep now tasks) g =
      ⟨g.weekly ++ rows.filterMap (pickType now tasks "Weekly"),
       g.increment ++ rows.filterMap (pickType now tasks "Increment"),
       g.admin ++ rows.filterMap (pickType now tasks "Admin")⟩ := by
  induction rows generalizing g with
  | nil => simp
  | cons r rest ih =>
    rw [List.foldl_cons, ih]
    unfold collectStep pickType
    cases hl : dictLookup tasks (pyStrip r.taskName) with
    | none => simp [List.filterMap_cons, hl]
    | some info =>
      by_cases hs : should_show_task now info
      · by_cases hw : info.type = "Weekly"
        · simp [List.filterMap_cons, hl, hs, hw]
        · by_cases hi : info.type = "Increment"
          · simp [List.filterMap_cons, hl, hs, hw, hi]
          · by_cases ha : info.type = "Admin" <;>
              simp [List.filterMap_cons, hl, hs, hw, hi, ha]
      · simp [List.filterMap_cons, hl, hs]

theorem collect_eq (now : Nat) (defRows : List DefRow) (tasks : List (String × TaskInfo)) :
    collectTasks now defRows tasks =
      ⟨defRows.filterMap (pickType now tasks "Weekly"),
       defRows.filterMap (pickType now tasks "Increment"),
       defRows.filterMap (pickType now tasks "Admin")⟩ := by
  simpa [collectTasks] using collect_aux now tasks defRows ⟨[], [], []⟩

theorem renderRow_ok {now : Nat} {g : Groups} {s : StudentRecord}
    (h : recordHasKey s "Student ID" = true) :
    renderRow now g s = .ok (renderRowTotal now g s) := by
  rw [renderRow, recordLookup_of_hasKey h]
  rfl

theorem renderRows_ok {now : Nat} {g : Groups} {students : List StudentRecord}
    (h : ∀ s ∈ students, recordHasKey s "Student ID" = true) :
    renderRows now g students = .ok (students.map (renderRowTotal now g)) := by
  induction students with
  | nil => rfl
  | cons s rest ih =>
    rw [renderRows, renderRow_ok (h s (List.mem_cons_self s rest))]
    rw [ih (fun x hx => h x (List.mem_cons_of_mem s hx))]
    rfl

theorem generate_ok {now : Nat} {defRows : List DefRow} {tasks : List (String × TaskInfo)}
    {students : List StudentRecord}
    (h : ∀ s ∈ students, recordHasKey s "Student ID" = true) :
    generate_progress_table now defRows tasks students =
      .ok (String.intercalate "\n"
        (headerStr :: students.map (renderRowTotal now (collectTasks now defRows tasks)))) := by
  rw [generate_progress_table, renderRows_ok h]
  rfl

theorem readDefRow_error {acc : List (String × TaskInfo)} {row : DefRow}
    (h : parseDateTime (pyStrip row.dueDate) = none ∨ pyInt (pyStrip row.weekNumber) = none) :
    ∃ e, readDefRow acc row = .error e := by
  rw [readDefRow]
  rcases h with h | h
  · rw [h]; exact ⟨_, rfl⟩
  · cases hd : parseDateTime (pyStrip row.dueDate) with
    | none => exact ⟨_, rfl⟩
    | some due => rw [h]; exact ⟨_, rfl⟩

theorem read_error {rows : List DefRow}
    (h : ∃ row ∈ rows, parseDateTime (pyStrip row.dueDate) = none
          ∨ pyInt (pyStrip row.weekNumber) = none) :
    ∀ acc, ∃ e, rows.foldlM readDefRow acc = .error e := by
  induction rows with
  | nil => rcases h with ⟨row, hmem, _⟩; cases hmem
  | cons r rest ih =>
    intro acc
    rcases h with ⟨row, hmem, hbad⟩
    rcases List.mem_cons.1 hmem with heq | hmem
    · subst heq
      obtain ⟨e, he⟩ := @readDefRow_error acc row hbad
      refine ⟨e, ?_⟩
      rw [List.foldlM_cons, he]
      rfl
    · cases hr : readDefRow acc r with
      | error e =>
        refine ⟨e, ?_⟩
        rw [List.foldlM_cons, hr]
        rfl
      | ok acc2 =>
        obtain ⟨e, he⟩ := ih ⟨row, hmem, hbad⟩ acc2
        refine ⟨e, ?_⟩
        rw [List.foldlM_cons, hr]
        simpa using he

theorem read_ok {rows : List DefRow}
    (h : ∀ row ∈ rows, (parseDateTime (pyStrip row.dueDate)).isSome = true
          ∧ (pyInt (pyStrip row.weekNumber)).isSome = true) :
    ∀ acc, ∃ t, rows.foldlM readDefRow acc = .ok t := by
  induction rows with
  | nil => exact fun acc => ⟨acc, rfl⟩
  | cons r rest ih =>
    intro acc
    obtain ⟨hd, hw⟩ := h r (List.mem_cons_self r rest)
    cases hdd : parseDateTime (pyStrip r.dueDate) with
    | none => rw [hdd] at hd; simp at hd
    | some due =>
      cases hww : pyInt (pyStrip r.weekNumber) with
      | none => rw [hww] at hw; simp at hw
      | some wk =>
        obtain ⟨t, ht⟩ := ih (fun x hx => h x (List.mem_cons_of_mem r hx))
          (dictInsert acc (pyStrip r.taskName)
            ⟨pyStrip r.taskType, pyLower (pyStrip r.isOptional) = "true", due, wk⟩)
        refine ⟨t, ?_⟩
        rw [List.foldlM_cons, readDefRow, hdd, hww]
        simpa using ht

theorem dictContains_cons (p : String × TaskInfo) (t : List (String × TaskInfo)) (k : String) :
    dictContains (p :: t) k = (decide (p.1 = k) || dictContains t k) := rfl

theorem dictContains_of_lookup {tasks : List (String × TaskInfo)} {k : String} {v : TaskInfo}
    (h : dictLookup tasks k = some v) : dictContains tasks k = true := by
  induction tasks with
  | nil => cases h
  | cons p rest ih =>
    rw [dictLookup] at h
    rw [dictContains_cons]
    by_cases hp : p.1 = k
    · simp [hp]
    · rw [if_neg hp] at h
      simp [ih h]

theorem should_show_iff (now : Nat) (info : TaskInfo) :
    should_show_task now info = true ↔ toMin info.due_date + 65 ≤ now + 5 * 1440 := by
  unfold should_show_task awareToUtc lmtOffset sgtOffset
  simp only [decide_eq_true_eq]
  omega

theorem is_overdue_eq (now : Nat) (info : TaskInfo) :
    is_overdue now info = decide (toMin info.due_date + 65 < now) := by
  unfold is_overdue awareToUtc lmtOffset sgtOffset
  rw [decide_eq_decide]
  omega

/-! ## Claims -/

/-- C2 counterexample: the claim's overdue branch reads `now > due_at`, but
the program's aware comparison puts the due side 65 minutes later (LMT +6:55
attached by `replace` versus +08:00 on `now`).  Sixty-five minutes past the
wall-clock due time, a not-completed task is still rendered pending, not
overdue, contradicting the claimed table. -/
theorem c2_counterexample :
    toMin (⟨2024, 1, 10, 23, 59⟩ : DateTime) < toMin ⟨2024, 1, 10, 23, 59⟩ + 65
    ∧ get_badge_html (toMin ⟨2024, 1, 10, 23, 59⟩ + 65) "T1" (some "0")
        ⟨"Weekly", true, ⟨2024, 1, 10, 23, 59⟩, 2⟩
      = mkSpan (styleClass BadgeStyle.pendingOptional) (specLabel false "T1")
    ∧ mkSpan (styleClass BadgeStyle.pendingOptional) (specLabel false "T1")
      ≠ mkSpan (styleClass BadgeStyle.overdue) (specLabel false "T1") := by
  refine ⟨by decide, by decide, by decide⟩

/-- C2 amended: `get_badge_html` realizes the specification's classification
table with the overdue row shifted by the pytz offset skew: the marker is
normalized (`None`/absent as not-completed, text trimmed, completed iff
`"1"`); completed tasks get `completed-optional`/`completed-required`
(`bg-info`/`bg-success`) with the bare name as label; a not-completed task is
`overdue` (`bg-danger`) — regardless of optionality — exactly when
`now > due_at + 65 min` (the aware comparison with LMT +6:55 attached to the
due side versus +08:00 on `now`); otherwise it is
`pending-optional`/`pending-required` (`bg-secondary`/`bg-dark`); every
not-completed label carries the strike marker prefix. -/
theorem c2_amended (now : Nat) (task_name : String) (m : Option String)
    (info : TaskInfo) :
    get_badge_html now task_name m info =
      mkSpan
        (styleClass (specBadgeStyle (decide (normalizeMarker m = "1"))
          info.is_optional (decide (toMin info.due_date + 65 < now))))
        (specLabel (decide (normalizeMarker m = "1")) task_name) := by
  by_cases h1 : normalizeMarker m = "1" <;>
    by_cases h2 : info.is_optional = true <;>
      by_cases h3 : toMin info.due_date + 65 < now <;>
        simp [get_badge_html, badge_class, badge_text, specBadgeStyle, specLabel,
          styleClass, is_overdue_eq, h1, h2, h3, Bool.not_eq_true] at *

/-- C5 counterexample: "overdue exactly when now > due_at" is false of the
program.  Sixty-five minutes past the wall-clock due time `now > due_at`
holds, yet the badge class of a not-completed required task is still
`bg-dark` (pending): the aware comparison only turns overdue at
`now > due_at + 65 min`. -/
theorem c5_counterexample :
    toMin (⟨2024, 1, 10, 23, 59⟩ : DateTime) < toMin ⟨2024, 1, 10, 23, 59⟩ + 65
    ∧ badge_class (toMin ⟨2024, 1, 10, 23, 59⟩ + 65) (some "0")
        ⟨"Weekly", false, ⟨2024, 1, 10, 23, 59⟩, 2⟩ = "bg-dark"
    ∧ ("bg-dark" : String) ≠ "bg-danger" := by
  refine ⟨by decide, by decide, by decide⟩

/-- C5 amended: overdue is strict at the skewed instant.  For a not-completed
marker, the badge class is `bg-danger` exactly when `now > due_at + 65 min`
(the program's aware comparison, LMT +6:55 on the due side versus +08:00 on
`now`); evaluated exactly at the wall-clock due time — and anywhere in the
65-minute band after it — the task is classified pending (`bg-secondary` when
optional, `bg-dark` when required), not overdue. -/
theorem c5_amended (now : Nat) (m : Option String) (info : TaskInfo)
    (h : normalizeMarker m ≠ "1") :
    (badge_class now m info = "bg-danger" ↔ toMin info.due_date + 65 < now)
    ∧ (now = toMin info.due_date →
        badge_class now m info = if info.is_optional then "bg-secondary" else "bg-dark") := by
  constructor
  · by_cases h3 : toMin info.due_date + 65 < now
    · simp [badge_class, is_overdue_eq, h, h3]
    · by_cases h2 : info.is_optional = true <;>
        simp [badge_class, is_overdue_eq, h, h2, h3, Bool.not_eq_true] at *
  · intro he
    have h3 : ¬ toMin info.due_date + 65 < now := by omega
    simp [badge_class, is_overdue_eq, h, h3]

/-- Witness for C5 amended at a concrete input: a required task with marker
`"0"` evaluated exactly at its due time is `bg-dark` (pending), not overdue. -/
theorem c5_amended_witness :
    badge_class (toMin ⟨2024, 1, 10, 23, 59⟩) (some "0")
      ⟨"Weekly", false, ⟨2024, 1, 10, 23, 59⟩, 2⟩ = "bg-dark" := by
  have h := (c5_amended (toMin ⟨2024, 1, 10, 23, 59⟩) (some "0")
    ⟨"Weekly", false, ⟨2024, 1, 10, 23, 59⟩, 2⟩ (by decide)).2 rfl
  simpa using h

/-- C3 counterexample: a defined, visible task whose name is absent from the
student record produces NO badge in that row (the loop guard `task_name in
student` skips it), contradicting the claim that it renders like an explicit
`"0"`. -/
theorem c3_counterexample :
    should_show_task (toMin ⟨2024, 1, 5, 0, 0⟩) ⟨"Weekly", false, ⟨2024, 1, 6, 0, 0⟩, 1⟩ = true
    ∧ rowBadges (toMin ⟨2024, 1, 5, 0, 0⟩)
        [("T1", ⟨"Weekly", false, ⟨2024, 1, 6, 0, 0⟩, 1⟩)]
        [("Student ID", some "A01")] = []
    ∧ rowBadges (toMin ⟨2024, 1, 5, 0, 0⟩)
        [("T1", ⟨"Weekly", false, ⟨2024, 1, 6, 0, 0⟩, 1⟩)]
        [("Student ID", some "A01")]
      ≠ [get_badge_html (toMin ⟨2024, 1, 5, 0, 0⟩) "T1" (some "0")
          ⟨"Weekly", false, ⟨2024, 1, 6, 0, 0⟩, 1⟩] := by
  refine ⟨by decide, by decide, by decide⟩

/-- C3 amended: the renderer emits badges only for tasks whose name is a key
of the student record (a task absent from the record is skipped, not rendered
as `"0"`); a task whose key is present with a `None` cell (short row) is
classified exactly like an explicit `"0"`. -/
theorem c3_amended (now : Nat) :
    (∀ (tl : List (String × TaskInfo)) (s : StudentRecord),
      rowBadges now tl s = rowBadges now (tl.filter (fun p => recordHasKey s p.1)) s)
    ∧ (∀ (name : String) (info : TaskInfo) (s : StudentRecord),
        recordHasKey s name = false → rowBadges now [(name, info)] s = [])
    ∧ (∀ (name : String) (info : TaskInfo),
        get_badge_html now name none info = get_badge_html now name (some "0") info) := by
  refine ⟨fun tl s => ?_, fun name info s h => ?_, fun name info => ?_⟩
  · rw [rowBadges_eq, rowBadges_eq, List.filter_filter]
    simp
  · simp [rowBadges, h]
  · have hm : normalizeMarker none = normalizeMarker (some "0") := by decide
    simp only [get_badge_html, badge_class, badge_text, hm]

/-- Witness for C3 amended at a concrete input: with no `T1` key the row gets
no badge, and a `None`-valued cell classifies like `"0"`. -/
theorem c3_amended_witness :
    rowBadges 0 [("T1", ⟨"Weekly", false, ⟨2024, 1, 6, 0, 0⟩, 1⟩)]
      [("Student ID", some "A01")] = []
    ∧ get_badge_html 0 "T1" none ⟨"Weekly", false, ⟨2024, 1, 6, 0, 0⟩, 1⟩
      = get_badge_html 0 "T1" (some "0") ⟨"Weekly", false, ⟨2024, 1, 6, 0, 0⟩, 1⟩ := by
  exact ⟨(c3_amended 0).2.1 "T1" ⟨"Weekly", false, ⟨2024, 1, 6, 0, 0⟩, 1⟩
    [("Student ID", some "A01")] (by decide),
    (c3_amended 0).2.2 "T1" ⟨"Weekly", false, ⟨2024, 1, 6, 0, 0⟩, 1⟩⟩

theorem pickType_mem {now : Nat} {tasks : List (String × TaskInfo)} {t : String}
    {p : String × TaskInfo} {defRows : List DefRow}
    (h : p ∈ defRows.filterMap (pickType now tasks t)) :
    dictLookup tasks p.1 = some p.2 ∧ should_show_task now p.2 = true ∧ p.2.type = t := by
  rcases List.mem_filterMap.1 h with ⟨r, _, hp⟩
  rw [pickType] at hp
  cases hl : dictLookup tasks (pyStrip r.taskName) with
  | none => rw [hl] at hp; simp at hp
  | some i =>
    rw [hl] at hp
    dsimp only at hp
    by_cases hc : (should_show_task now i && decide (i.type = t)) = true
    · rw [if_pos hc] at hp
      injection hp with hp2
      subst hp2
      have hc2 : should_show_task now i = true ∧ i.type = t := by simpa using hc
      exact ⟨hl, hc2.1, hc2.2⟩
    · rw [if_neg hc] at hp
      cases hp

theorem pickType_of {now : Nat} {tasks : List (String × TaskInfo)} {t : String}
    {row : DefRow} {info : TaskInfo}
    (hlk : dictLookup tasks (pyStrip row.taskName) = some info)
    (hshow : should_show_task now info = true) (ht : info.type = t) :
    pickType now tasks t row = some (pyStrip row.taskName, info) := by
  rw [pickType, hlk]
  simp [hshow, ht]

/-- C1 counterexample: the spec's claimed window is `due_at <= now + 7 days`,
but a task due exactly seven days from `now` fails the code's visibility
filter and lands in no category group: the window in the code is five days. -/
theorem c1_counterexample :
    specVisible7 (toMin ⟨2024, 1, 1, 0, 0⟩) ⟨"Weekly", false, ⟨2024, 1, 8, 0, 0⟩, 1⟩ = true
    ∧ toMin (⟨2024, 1, 8, 0, 0⟩ : DateTime) = toMin ⟨2024, 1, 1, 0, 0⟩ + 7 * 1440
    ∧ should_show_task (toMin ⟨2024, 1, 1, 0, 0⟩) ⟨"Weekly", false, ⟨2024, 1, 8, 0, 0⟩, 1⟩ = false
    ∧ collectTasks (toMin ⟨2024, 1, 1, 0, 0⟩)
        [⟨"T1", "Weekly", "false", "2024-01-08 00:00", "1"⟩]
        [("T1", ⟨"Weekly", false, ⟨2024, 1, 8, 0, 0⟩, 1⟩)] = ⟨[], [], []⟩ := by
  refine ⟨by decide, by decide, by decide, by decide⟩

/-- C1 amended: the window is FIVE days, not seven, and it is further
shortened by the pytz offset skew.  For a defined task of a recognized
category whose name is a column of the student's record, a badge for it
appears in the row if and only if `due_at + 65 min <= now + 5 days`
(equivalently `due_at <= now + 5 days - 65 min`): `replace` attaches LMT
+6:55 to the due side while `now` carries +08:00, so a task due exactly
`now + 5 days` wall-clock is NOT shown.  The boundary is inclusive at the
skewed instant and there is no lower bound on past due dates; the same bound
characterizes the visibility filter itself. -/
theorem c1_amended (now : Nat) (defRows : List DefRow) (tasks : List (String × TaskInfo))
    (row : DefRow) (info : TaskInfo) (s : StudentRecord)
    (hrow : row ∈ defRows)
    (hlk : dictLookup tasks (pyStrip row.taskName) = some info)
    (htype : info.type = "Weekly" ∨ info.type = "Increment" ∨ info.type = "Admin")
    (hkey : recordHasKey s (pyStrip row.taskName) = true) :
    (pyStrip row.taskName ∈ badgedTaskNames
        ((collectTasks now defRows tasks).weekly
          ++ (collectTasks now defRows tasks).increment
          ++ (collectTasks now defRows tasks).admin) s
      ↔ toMin info.due_date + 65 ≤ now + 5 * 1440)
    ∧ (should_show_task now info = true ↔ toMin info.due_date + 65 ≤ now + 5 * 1440) := by
  refine ⟨?_, should_show_iff now info⟩
  rw [collect_eq]
  dsimp only
  constructor
  · intro hmem
    rcases List.mem_map.1 hmem with ⟨p, hpf, hpn⟩
    have hpm := (List.mem_filter.1 hpf).1
    have hcond : dictLookup tasks p.1 = some p.2 ∧ should_show_task now p.2 = true := by
      rcases List.mem_append.1 hpm with hwi | ha
      · rcases List.mem_append.1 hwi with hw | hi
        · obtain ⟨hl, hs2, _⟩ := pickType_mem hw
          exact ⟨hl, hs2⟩
        · obtain ⟨hl, hs2, _⟩ := pickType_mem hi
          exact ⟨hl, hs2⟩
      · obtain ⟨hl, hs2, _⟩ := pickType_mem ha
        exact ⟨hl, hs2⟩
    obtain ⟨hl2, hs2⟩ := hcond
    rw [hpn, hlk] at hl2
    injection hl2 with hl3
    rw [← hl3] at hs2
    exact (should_show_iff now info).1 hs2
  · intro hle
    have hshow : should_show_task now info = true := (should_show_iff now info).2 hle
    refine List.mem_map.2 ⟨(pyStrip row.taskName, info), ?_, rfl⟩
    refine List.mem_filter.2 ⟨?_, by simpa using hkey⟩
    rcases htype with ht | ht | ht
    · exact List.mem_append.2 (Or.inl (List.mem_append.2 (Or.inl
        (List.mem_filterMap.2 ⟨row, hrow, pickType_of hlk hshow ht⟩))))
    · exact List.mem_append.2 (Or.inl (List.mem_append.2 (Or.inr
        (List.mem_filterMap.2 ⟨row, hrow, pickType_of hlk hshow ht⟩))))
    · exact List.mem_append.2 (Or.inr
        (List.mem_filterMap.2 ⟨row, hrow, pickType_of hlk hshow ht⟩))

/-- Witness for C1 amended at a concrete input: a task due the next day is
visible and badged in the student's row. -/
theorem c1_amended_witness :
    pyStrip "T1" ∈ badgedTaskNames
      ((collectTasks (toMin ⟨2024, 1, 5, 0, 0⟩)
          [⟨"T1", "Weekly", "false", "2024-01-06 00:00", "1"⟩]
          [("T1", ⟨"Weekly", false, ⟨2024, 1, 6, 0, 0⟩, 1⟩)]).weekly
        ++ (collectTasks (toMin ⟨2024, 1, 5, 0, 0⟩)
          [⟨"T1", "Weekly", "false", "2024-01-06 00:00", "1"⟩]
          [("T1", ⟨"Weekly", false, ⟨2024, 1, 6, 0, 0⟩, 1⟩)]).increment
        ++ (collectTasks (toMin ⟨2024, 1, 5, 0, 0⟩)
          [⟨"T1", "Weekly", "false", "2024-01-06 00:00", "1"⟩]
          [("T1", ⟨"Weekly", false, ⟨2024, 1, 6, 0, 0⟩, 1⟩)]).admin)
      [("Student ID", some "A01"), ("T1", some "0")] := by
  exact (c1_amended (toMin ⟨2024, 1, 5, 0, 0⟩)
    [⟨"T1", "Weekly", "false", "2024-01-06 00:00", "1"⟩]
    [("T1", ⟨"Weekly", false, ⟨2024, 1, 6, 0, 0⟩, 1⟩)]
    ⟨"T1", "Weekly", "false", "2024-01-06 00:00", "1"⟩
    ⟨"Weekly", false, ⟨2024, 1, 6, 0, 0⟩, 1⟩
    [("Student ID", some "A01"), ("T1", some "0")]
    (by decide) (by decide) (by decide) (by decide)).1.mpr (by decide)

/-- C4 counterexample: a definition row with the unrecognized Task Type
`"Misc"` loads without error and the whole run succeeds; the task is merely
left out of all three category groups (silently excluded), contradicting the
claim that loading fails fatally before any output. -/
theorem c4_counterexample :
    read_task_definitions [⟨"T1", "Misc", "false", "2024-01-01 00:00", "1"⟩]
      = .ok [("T1", ⟨"Misc", false, ⟨2024, 1, 1, 0, 0⟩, 1⟩)]
    ∧ exceptIsOk (mainRun (toMin ⟨2024, 1, 1, 0, 0⟩)
        [⟨"T1", "Misc", "false", "2024-01-01 00:00", "1"⟩]
        ["Student ID", "T1"] [["A01", "1"]]) = true
    ∧ collectTasks (toMin ⟨2024, 1, 1, 0, 0⟩)
        [⟨"T1", "Misc", "false", "2024-01-01 00:00", "1"⟩]
        [("T1", ⟨"Misc", false, ⟨2024, 1, 1, 0, 0⟩, 1⟩)] = ⟨[], [], []⟩ := by
  exact ⟨rfl, rfl, rfl⟩

/-- C4 amended: the loader never validates Task Type.  A definition table
whose dates and week numbers parse always loads successfully, whatever the
Task Type values; a loaded task whose type is none of Weekly/Increment/Admin
is silently excluded from every category group of the report (the run does
not abort). -/
theorem c4_amended (now : Nat) (defRows : List DefRow)
    (hgood : ∀ row ∈ defRows, (parseDateTime (pyStrip row.dueDate)).isSome = true
        ∧ (pyInt (pyStrip row.weekNumber)).isSome = true) :
    (∃ tasks, read_task_definitions defRows = .ok tasks)
    ∧ ∀ tasks name info, read_task_definitions defRows = .ok tasks →
        dictLookup tasks name = some info →
        info.type ≠ "Weekly" → info.type ≠ "Increment" → info.type ≠ "Admin" →
        name ∉ ((collectTasks now defRows tasks).weekly.map Prod.fst)
        ∧ name ∉ ((collectTasks now defRows tasks).increment.map Prod.fst)
        ∧ name ∉ ((collectTasks now defRows tasks).admin.map Prod.fst) := by
  constructor
  · exact read_ok hgood []
  · intro tasks name info _ hlk hw hi ha
    have key : ∀ t : String, info.type ≠ t →
        name ∉ (defRows.filterMap (pickType now tasks t)).map Prod.fst := by
      intro t hne hmem
      rcases List.mem_map.1 hmem with ⟨p, hp, hpn⟩
      obtain ⟨hl, _, htp⟩ := pickType_mem hp
      rw [hpn, hlk] at hl
      injection hl with hl2
      rw [← hl2] at htp
      exact hne htp
    rw [collect_eq]
    exact ⟨key "Weekly" hw, key "Increment" hi, key "Admin" ha⟩

/-- Witness for C4 amended at a concrete input: the `"Misc"`-typed task is
absent from the Weekly group. -/
theorem c4_amended_witness :
    "T1" ∉ ((collectTasks (toMin ⟨2024, 1, 1, 0, 0⟩)
        [⟨"T1", "Misc", "false", "2024-01-01 00:00", "1"⟩]
        [("T1", ⟨"Misc", false, ⟨2024, 1, 1, 0, 0⟩, 1⟩)]).weekly.map Prod.fst) := by
  exact ((c4_amended (toMin ⟨2024, 1, 1, 0, 0⟩)
    [⟨"T1", "Misc", "false", "2024-01-01 00:00", "1"⟩] (by decide)).2
    [("T1", ⟨"Misc", false, ⟨2024, 1, 1, 0, 0⟩, 1⟩)] "T1"
    ⟨"Misc", false, ⟨2024, 1, 1, 0, 0⟩, 1⟩ rfl rfl
    (by decide) (by decide) (by decide)).1

/-- C7: a definition row whose Due Date fails to parse as `YYYY-MM-DD HH:MM`
or whose Week Number is not an integer makes the load, and hence the whole
run, fail; the `.error` result means the process died before the output file
was written (the write only happens on the `.ok` path of `mainRun`). -/
theorem c7_confirmed (now : Nat) (defRows : List DefRow) (headers : List String)
    (progRows : List (List String))
    (h : ∃ row ∈ defRows, parseDateTime (pyStrip row.dueDate) = none
          ∨ pyInt (pyStrip row.weekNumber) = none) :
    exceptIsOk (read_task_definitions defRows) = false
    ∧ exceptIsOk (mainRun now defRows headers progRows) = false := by
  obtain ⟨e, he⟩ := read_error h []
  have hrd : read_task_definitions defRows = .error e := he
  constructor
  · rw [hrd]
    rfl
  · unfold mainRun
    rw [hrd]
    rfl

/-- Witness for C7 at a concrete input: month 13 does not parse, the run
fails with no output. -/
theorem c7_witness :
    exceptIsOk (mainRun 0 [⟨"T1", "Weekly", "false", "2024-13-01 00:00", "1"⟩]
      ["Student ID", "T1"] [["A01", "1"]]) = false := by
  exact (c7_confirmed 0 [⟨"T1", "Weekly", "false", "2024-13-01 00:00", "1"⟩]
    ["Student ID", "T1"] [["A01", "1"]] (by decide)).2

/-- C6: ordering.  The output is the header plus one line per student record
in exactly the input order (`students.map`); each category group is an
order-preserving `filterMap` of the original definition-table rows (no
re-sorting); and within a row each group's badges are an order-preserving
filtered map of that group's task list. -/
theorem c6_confirmed (now : Nat) (defRows : List DefRow)
    (tasks : List (String × TaskInfo)) (students : List StudentRecord)
    (h : ∀ s ∈ students, recordHasKey s "Student ID" = true) :
    collectTasks now defRows tasks =
      ⟨defRows.filterMap (pickType now tasks "Weekly"),
       defRows.filterMap (pickType now tasks "Increment"),
       defRows.filterMap (pickType now tasks "Admin")⟩
    ∧ generate_progress_table now defRows tasks students =
        .ok (String.intercalate "\n"
          (headerStr :: students.map (renderRowTotal now (collectTasks now defRows tasks))))
    ∧ ∀ (tl : List (String × TaskInfo)) (s : StudentRecord),
        rowBadges now tl s = (tl.filter (fun p => recordHasKey s p.1)).map
          (fun p => get_badge_html now p.1 (recordGet s p.1) p.2) := by
  exact ⟨collect_eq now defRows tasks, generate_ok h, fun tl s => rowBadges_eq now tl s⟩

/-- Witness for C6 at a concrete input: a two-student table renders two rows
in input order. -/
theorem c6_witness :
    generate_progress_table (toMin ⟨2024, 1, 5, 0, 0⟩)
      [⟨"T1", "Weekly", "false", "2024-01-06 00:00", "1"⟩]
      [("T1", ⟨"Weekly", false, ⟨2024, 1, 6, 0, 0⟩, 1⟩)]
      [[("Student ID", some "A01"), ("T1", some "1")],
       [("Student ID", some "B02"), ("T1", some "0")]]
      = .ok (String.intercalate "\n" (headerStr ::
          ([[("Student ID", some "A01"), ("T1", some "1")],
            [("Student ID", some "B02"), ("T1", some "0")]].map
            (renderRowTotal (toMin ⟨2024, 1, 5, 0, 0⟩)
              (collectTasks (toMin ⟨2024, 1, 5, 0, 0⟩)
                [⟨"T1", "Weekly", "false", "2024-01-06 00:00", "1"⟩]
                [("T1", ⟨"Weekly", false, ⟨2024, 1, 6, 0, 0⟩, 1⟩)]))))) := by
  exact (c6_confirmed (toMin ⟨2024, 1, 5, 0, 0⟩)
    [⟨"T1", "Weekly", "false", "2024-01-06 00:00", "1"⟩]
    [("T1", ⟨"Weekly", false, ⟨2024, 1, 6, 0, 0⟩, 1⟩)]
    [[("Student ID", some "A01"), ("T1", some "1")],
     [("Student ID", some "B02"), ("T1", some "0")]] (by decide)).2.1

/-- C9: uniform rows.  Any two records loaded from the same progress table
carry the same key set (the shared trimmed header row), so every row badges
the same task-name sequence and each category group has the same badge count
in every row. -/
theorem c9_confirmed (now : Nat) (headers : List String) (rows : List (List String))
    (tl : List (String × TaskInfo)) (s₁ s₂ : StudentRecord)
    (h₁ : s₁ ∈ read_student_progress headers rows)
    (h₂ : s₂ ∈ read_student_progress headers rows) :
    badgedTaskNames tl s₁ = badgedTaskNames tl s₂
    ∧ (rowBadges now tl s₁).length = (rowBadges now tl s₂).length := by
  simp only [read_student_progress] at h₁ h₂
  obtain ⟨v₁, _, hz₁⟩ := List.mem_map.1 h₁
  obtain ⟨v₂, _, hz₂⟩ := List.mem_map.1 h₂
  have hkeys : ∀ k, recordHasKey s₁ k = recordHasKey s₂ k := by
    intro k
    rw [← hz₁, ← hz₂, zipRecord_hasKey, zipRecord_hasKey]
  have hfilter : tl.filter (fun p => recordHasKey s₁ p.1)
      = tl.filter (fun p => recordHasKey s₂ p.1) := by
    apply List.filter_congr
    intro p _
    rw [hkeys p.1]
  constructor
  · unfold badgedTaskNames
    rw [hfilter]
  · rw [rowBadges_eq, rowBadges_eq, List.length_map, List.length_map, hfilter]

/-- Witness for C9 at a concrete input: two records of the same table badge
the same task names. -/
theorem c9_witness :
    badgedTaskNames [("T1", ⟨"Weekly", false, ⟨2024, 1, 6, 0, 0⟩, 1⟩)]
        [("Student ID", some "A01"), ("T1", some "1")]
      = badgedTaskNames [("T1", ⟨"Weekly", false, ⟨2024, 1, 6, 0, 0⟩, 1⟩)]
        [("Student ID", some "B02"), ("T1", some "0")] := by
  exact (c9_confirmed 0 ["Student ID", "T1"] [["A01", "1"], ["B02", "0"]]
    [("T1", ⟨"Weekly", false, ⟨2024, 1, 6, 0, 0⟩, 1⟩)]
    [("Student ID", some "A01"), ("T1", some "1")]
    [("Student ID", some "B02"), ("T1", some "0")]
    (by decide) (by decide)).1

theorem exbind_ok {ε α β : Type} (a : α) (f : α → Except ε β) :
    (Except.ok a >>= f) = f a := rfl

theorem mainRun_ok_eq {now : Nat} {defRows : List DefRow} {headers : List String}
    {progRows : List (List String)} {tasks : List (String × TaskInfo)} {doc : String}
    (h1 : read_task_definitions defRows = .ok tasks)
    (h2 : generate_progress_table now defRows tasks (read_student_progress headers progRows)
            = .ok doc) :
    mainRun now defRows headers progRows
      = .ok (computeWarnings tasks (read_student_progress headers progRows), doc) := by
  unfold mainRun
  rw [h1]
  simp only [exbind_ok]
  rw [h2]
  rfl

/-- C8: a task name present in the student table but absent from the
definitions is non-fatal: the run still succeeds and renders the full report,
the name is emitted on the diagnostic channel (the warning list, each entry
printed inside a warning line naming the task), and no badge for it can
appear in any category group of any student's row. -/
theorem c8_confirmed (now : Nat) (defRows : List DefRow) (headers : List String)
    (progRows : List (List String)) (tasks : List (String × TaskInfo))
    (name : String) (s₀ : StudentRecord) (rest : List StudentRecord)
    (hread : read_task_definitions defRows = .ok tasks)
    (hstud : read_student_progress headers progRows = s₀ :: rest)
    (hname : name ∈ recordKeys s₀)
    (hundef : dictContains tasks name = false)
    (hfn : name ≠ "Full Name") (hsid : name ≠ "Student ID")
    (hids : ∀ s ∈ read_student_progress headers progRows, recordHasKey s "Student ID" = true)
    (_hrag : ∀ r ∈ progRows, r.length ≤ headers.length) :
    name ∈ computeWarnings tasks (read_student_progress headers progRows)
    ∧ exceptIsOk (mainRun now defRows headers progRows) = true
    ∧ name ∉ ((collectTasks now defRows tasks).weekly.map Prod.fst)
    ∧ name ∉ ((collectTasks now defRows tasks).increment.map Prod.fst)
    ∧ name ∉ ((collectTasks now defRows tasks).admin.map Prod.fst) := by
  have key2 : ∀ t : String, name ∉ (defRows.filterMap (pickType now tasks t)).map Prod.fst := by
    intro t hmem
    rcases List.mem_map.1 hmem with ⟨p, hp, hpn⟩
    obtain ⟨hl, _, _⟩ := pickType_mem hp
    rw [hpn] at hl
    have hc := dictContains_of_lookup hl
    rw [hundef] at hc
    cases hc
  refine ⟨?_, ?_, ?_, ?_, ?_⟩
  · rw [hstud]
    unfold computeWarnings
    refine List.mem_filter.2 ⟨(List.mem_insertionSort (fun a b => a ≤ b)).2 hname, ?_⟩
    simp [hundef, hfn, hsid]
  · rw [mainRun_ok_eq hread (@generate_ok now defRows tasks _ hids)]
    rfl
  · rw [collect_eq]
    exact key2 "Weekly"
  · rw [collect_eq]
    exact key2 "Increment"
  · rw [collect_eq]
    exact key2 "Admin"

/-- Witness for C8 at a concrete input: a `Ghost` column unknown to the
definitions is warned about while the run succeeds. -/
theorem c8_witness :
    "Ghost" ∈ computeWarnings []
      (read_student_progress ["Student ID", "Ghost"] [["A01", "1"]]) := by
  exact (c8_confirmed 0 [] ["Student ID", "Ghost"] [["A01", "1"]] [] "Ghost"
    [("Student ID", some "A01"), ("Ghost", some "1")] []
    rfl rfl (by decide) rfl (by decide) (by decide) (by decide) (by decide)).1

/-! ## Week-number noninterference (C10) -/

/-- Two task-info values equal except possibly in `week_number`. -/
def wkEq (i₁ i₂ : TaskInfo) : Prop :=
  i₁.type = i₂.type ∧ i₁.is_optional = i₂.is_optional ∧ i₁.due_date = i₂.due_date

/-- Two dictionary entries with equal keys and `wkEq` values. -/
def entryRel (p q : String × TaskInfo) : Prop :=
  p.1 = q.1 ∧ wkEq p.2 q.2

/-- Pointwise `entryRel` between two task dictionaries. -/
def dictRel (t₁ t₂ : List (String × TaskInfo)) : Prop :=
  List.Forall₂ entryRel t₁ t₂

/-- Two definition rows identical except in the Week Number column, both of
whose week numbers parse as integers. -/
def rowWkEq (r₁ r₂ : DefRow) : Prop :=
  r₁.taskName = r₂.taskName ∧ r₁.taskType = r₂.taskType ∧ r₁.isOptional = r₂.isOptional
    ∧ r₁.dueDate = r₂.dueDate ∧ (pyInt (pyStrip r₁.weekNumber)).isSome = true
    ∧ (pyInt (pyStrip r₂.weekNumber)).isSome = true

theorem wkEq_show {i₁ i₂ : TaskInfo} (h : wkEq i₁ i₂) (now : Nat) :
    should_show_task now i₁ = should_show_task now i₂ := by
  unfold should_show_task
  rw [h.2.2]

theorem wkEq_badge {i₁ i₂ : TaskInfo} (h : wkEq i₁ i₂) (now : Nat) (n : String)
    (m : Option String) : get_badge_html now n m i₁ = get_badge_html now n m i₂ := by
  obtain ⟨-, h2, h3⟩ := h
  unfold get_badge_html badge_class badge_text is_overdue
  rw [h2, h3]

theorem dictRel_any {t₁ t₂ : List (String × TaskInfo)} (h : dictRel t₁ t₂) (k : String) :
    t₁.any (fun p => p.1 = k) = t₂.any (fun p => p.1 = k) := by
  induction h with
  | nil => rfl
  | cons hpq _ ih => simp [List.any_cons, hpq.1, ih]

theorem dictRel_lookup {t₁ t₂ : List (String × TaskInfo)} (h : dictRel t₁ t₂) (k : String) :
    (dictLookup t₁ k = none ∧ dictLookup t₂ k = none)
    ∨ ∃ v₁ v₂, dictLookup t₁ k = some v₁ ∧ dictLookup t₂ k = some v₂ ∧ wkEq v₁ v₂ := by
  induction h with
  | nil => exact Or.inl ⟨rfl, rfl⟩
  | @cons p q l₁ l₂ hpq hrest ih =>
    rw [dictLookup, dictLookup]
    by_cases hk : p.1 = k
    · rw [if_pos hk, if_pos (by rw [← hpq.1]; exact hk)]
      exact Or.inr ⟨p.2, q.2, rfl, rfl, hpq.2⟩
    · rw [if_neg hk, if_neg (by rw [← hpq.1]; exact hk)]
      exact ih

theorem dictRel_append {t₁ t₂ u₁ u₂ : List (String × TaskInfo)} (h : dictRel t₁ t₂)
    (h2 : dictRel u₁ u₂) : dictRel (t₁ ++ u₁) (t₂ ++ u₂) := by
  induction h with
  | nil => exact h2
  | cons hpq _ ih => exact List.Forall₂.cons hpq ih

theorem dictRel_insert {t₁ t₂ : List (String × TaskInfo)} (h : dictRel t₁ t₂)
    {v₁ v₂ : TaskInfo} (hv : wkEq v₁ v₂) (k : String) :
    dictRel (dictInsert t₁ k v₁) (dictInsert t₂ k v₂) := by
  unfold dictInsert
  rw [← dictRel_any h k]
  by_cases hc : t₁.any (fun p => p.1 = k) = true
  · rw [if_pos hc, if_pos hc]
    clear hc
    induction h with
    | nil => exact List.Forall₂.nil
    | @cons p q l₁ l₂ hpq hrest ih =>
      rw [List.map_cons, List.map_cons]
      by_cases hpk : p.1 = k
      · rw [if_pos hpk, if_pos (by rw [← hpq.1]; exact hpk)]
        exact List.Forall₂.cons ⟨rfl, hv⟩ ih
      · rw [if_neg hpk, if_neg (by rw [← hpq.1]; exact hpk)]
        exact List.Forall₂.cons hpq ih
  · rw [if_neg hc, if_neg hc]
    exact dictRel_append h (List.Forall₂.cons ⟨rfl, hv⟩ List.Forall₂.nil)

theorem readDefRow_rel {r₁ r₂ : DefRow} (hr : rowWkEq r₁ r₂)
    {a₁ a₂ : List (String × TaskInfo)} (ha : dictRel a₁ a₂) :
    (∃ e, readDefRow a₁ r₁ = .error e ∧ readDefRow a₂ r₂ = .error e)
    ∨ ∃ t₁ t₂, readDefRow a₁ r₁ = .ok t₁ ∧ readDefRow a₂ r₂ = .ok t₂ ∧ dictRel t₁ t₂ := by
  obtain ⟨hn, ht, ho, hd, hw₁, hw₂⟩ := hr
  unfold readDefRow
  rw [← hd]
  cases hp : parseDateTime (pyStrip r₁.dueDate) with
  | none => exact Or.inl ⟨_, rfl, rfl⟩
  | some due =>
    cases hq₁ : pyInt (pyStrip r₁.weekNumber) with
    | none => rw [hq₁] at hw₁; simp at hw₁
    | some w₁ =>
      cases hq₂ : pyInt (pyStrip r₂.weekNumber) with
      | none => rw [hq₂] at hw₂; simp at hw₂
      | some w₂ =>
        refine Or.inr ⟨_, _, rfl, rfl, ?_⟩
        rw [← hn, ← ht, ← ho]
        refine dictRel_insert ha ?_ _
        exact ⟨rfl, rfl, rfl⟩

theorem read_rel {rows₁ rows₂ : List DefRow} (h : List.Forall₂ rowWkEq rows₁ rows₂) :
    ∀ a₁ a₂, dictRel a₁ a₂ →
      (∃ e, rows₁.foldlM readDefRow a₁ = .error e ∧ rows₂.foldlM readDefRow a₂ = .error e)
      ∨ ∃ t₁ t₂, rows₁.foldlM readDefRow a₁ = .ok t₁ ∧ rows₂.foldlM readDefRow a₂ = .ok t₂
          ∧ dictRel t₁ t₂ := by
  induction h with
  | nil => exact fun a₁ a₂ ha => Or.inr ⟨a₁, a₂, rfl, rfl, ha⟩
  | @cons r₁ r₂ l₁ l₂ hr hrest ih =>
    intro a₁ a₂ ha
    rcases readDefRow_rel hr ha with ⟨e, he₁, he₂⟩ | ⟨t₁, t₂, ht₁, ht₂, hrel⟩
    · refine Or.inl ⟨e, ?_, ?_⟩
      · rw [List.foldlM_cons, he₁]
        rfl
      · rw [List.foldlM_cons, he₂]
        rfl
    · rw [List.foldlM_cons, List.foldlM_cons, ht₁, ht₂]
      simp only [exbind_ok]
      exact ih t₁ t₂ hrel

theorem pick_rel {now : Nat} {t₁ t₂ : List (String × TaskInfo)} (hd : dictRel t₁ t₂)
    {rows₁ rows₂ : List DefRow} (h : List.Forall₂ rowWkEq rows₁ rows₂) (ty : String) :
    List.Forall₂ entryRel (rows₁.filterMap (pickType now t₁ ty))
      (rows₂.filterMap (pickType now t₂ ty)) := by
  induction h with
  | nil => exact List.Forall₂.nil
  | @cons r₁ r₂ l₁ l₂ hr hrest ih =>
    have hname : pyStrip r₁.taskName = pyStrip r₂.taskName := by rw [hr.1]
    rcases dictRel_lookup hd (pyStrip r₁.taskName) with ⟨hn₁, hn₂⟩ | ⟨v₁, v₂, hv₁, hv₂, hvrel⟩
    · have e₁ : pickType now t₁ ty r₁ = none := by
        rw [pickType, hn₁]
      have e₂ : pickType now t₂ ty r₂ = none := by
        rw [pickType, ← hname, hn₂]
      rw [List.filterMap_cons_none e₁, List.filterMap_cons_none e₂]
      exact ih
    · have hshow : should_show_task now v₁ = should_show_task now v₂ := wkEq_show hvrel now
      have htype : v₁.type = v₂.type := hvrel.1
      by_cases hc : (should_show_task now v₁ && decide (v₁.type = ty)) = true
      · have e₁ : pickType now t₁ ty r₁ = some (pyStrip r₁.taskName, v₁) := by
          rw [pickType, hv₁]
          dsimp only
          rw [if_pos hc]
        have e₂ : pickType now t₂ ty r₂ = some (pyStrip r₂.taskName, v₂) := by
          rw [pickType, ← hname, hv₂]
          dsimp only
          rw [if_pos (by rw [← hshow, ← htype]; exact hc)]
        rw [List.filterMap_cons_some e₁, List.filterMap_cons_some e₂]
        exact List.Forall₂.cons ⟨hname, hvrel⟩ ih
      · have e₁ : pickType now t₁ ty r₁ = none := by
          rw [pickType, hv₁]
          dsimp only
          rw [if_neg hc]
        have e₂ : pickType now t₂ ty r₂ = none := by
          rw [pickType, ← hname, hv₂]
          dsimp only
          rw [if_neg (by rw [← hshow, ← htype]; exact hc)]
        rw [List.filterMap_cons_none e₁, List.filterMap_cons_none e₂]
        exact ih

theorem rowBadges_rel {now : Nat} {tl₁ tl₂ : List (String × TaskInfo)}
    (h : List.Forall₂ entryRel tl₁ tl₂) (s : StudentRecord) :
    rowBadges now tl₁ s = rowBadges now tl₂ s := by
  rw [rowBadges_eq, rowBadges_eq]
  induction h with
  | nil => rfl
  | @cons p q l₁ l₂ hpq hrest ih =>
    rw [List.filter_cons, List.filter_cons]
    by_cases hk : recordHasKey s p.1 = true
    · rw [if_pos (by simpa using hk), if_pos (by rw [← hpq.1] at *; simpa using hk)]
      rw [List.map_cons, List.map_cons, ih]
      congr 1
      rw [← hpq.1]
      exact wkEq_badge hpq.2 now p.1 (recordGet s p.1)
    · rw [if_neg (by simpa using hk), if_neg (by rw [← hpq.1] at *; simpa using hk)]
      exact ih

theorem renderRow_rel {now : Nat} {w₁ i₁ a₁ w₂ i₂ a₂ : List (String × TaskInfo)}
    (hw : List.Forall₂ entryRel w₁ w₂)
    (hi : List.Forall₂ entryRel i₁ i₂)
    (ha : List.Forall₂ entryRel a₁ a₂) (s : StudentRecord) :
    renderRow now ⟨w₁, i₁, a₁⟩ s = renderRow now ⟨w₂, i₂, a₂⟩ s := by
  unfold renderRow
  cases hl : recordLookup s "Student ID" with
  | none => rfl
  | some v => rw [rowBadges_rel hw, rowBadges_rel hi, rowBadges_rel ha]

theorem renderRows_rel {now : Nat} {w₁ i₁ a₁ w₂ i₂ a₂ : List (String × TaskInfo)}
    (hw : List.Forall₂ entryRel w₁ w₂)
    (hi : List.Forall₂ entryRel i₁ i₂)
    (ha : List.Forall₂ entryRel a₁ a₂) (students : List StudentRecord) :
    renderRows now ⟨w₁, i₁, a₁⟩ students = renderRows now ⟨w₂, i₂, a₂⟩ students := by
  induction students with
  | nil => rfl
  | cons s rest ih =>
    rw [renderRows, renderRows, renderRow_rel hw hi ha s]
    congr 1
    funext r
    rw [ih]

theorem generate_rel {now : Nat} {rows₁ rows₂ : List DefRow}
    {t₁ t₂ : List (String × TaskInfo)} (hd : dictRel t₁ t₂)
    (h : List.Forall₂ rowWkEq rows₁ rows₂) (students : List StudentRecord) :
    generate_progress_table now rows₁ t₁ students
      = generate_progress_table now rows₂ t₂ students := by
  unfold generate_progress_table
  rw [collect_eq, collect_eq]
  dsimp only
  rw [renderRows_rel (pick_rel hd h "Weekly") (pick_rel hd h "Increment")
    (pick_rel hd h "Admin") students]

theorem warnings_rel {t₁ t₂ : List (String × TaskInfo)} (hd : dictRel t₁ t₂)
    (students : List StudentRecord) :
    computeWarnings t₁ students = computeWarnings t₂ students := by
  unfold computeWarnings
  cases students with
  | nil => rfl
  | cons s rest =>
    apply List.filter_congr
    intro n _
    unfold dictContains
    rw [dictRel_any hd n]

/-- C10: week-number noninterference.  For two definition tables identical
except in their Week Number column (both parseable as integers), the same
student table and the same clock, the whole run result — diagnostics and the
rendered report document — is identical: the week number never influences
visibility, classification, grouping, ordering, or the emitted text. -/
theorem c10_confirmed (now : Nat) (headers : List String) (progRows : List (List String))
    (rows₁ rows₂ : List DefRow) (h : List.Forall₂ rowWkEq rows₁ rows₂) :
    mainRun now rows₁ headers progRows = mainRun now rows₂ headers progRows := by
  unfold mainRun read_task_definitions
  rcases read_rel h [] [] List.Forall₂.nil with ⟨e, he₁, he₂⟩ | ⟨t₁, t₂, ht₁, ht₂, hrel⟩
  · rw [he₁, he₂]
    rfl
  · rw [ht₁, ht₂]
    simp only [exbind_ok]
    rw [warnings_rel hrel, generate_rel hrel h]

/-- Witness for C10 at a concrete input: changing the week from 1 to 7 leaves
the run result unchanged. -/
theorem c10_witness :
    mainRun 0 [⟨"T1", "Weekly", "false", "2024-01-06 00:00", "1"⟩]
      ["Student ID", "T1"] [["A01", "1"]]
      = mainRun 0 [⟨"T1", "Weekly", "false", "2024-01-06 00:00", "7"⟩]
        ["Student ID", "T1"] [["A01", "1"]] := by
  exact c10_confirmed 0 ["Student ID", "T1"] [["A01", "1"]]
    [⟨"T1", "Weekly", "false", "2024-01-06 00:00", "1"⟩]
    [⟨"T1", "Weekly", "false", "2024-01-06 00:00", "7"⟩]
    (List.Forall₂.cons ⟨rfl, rfl, rfl, rfl, by decide, by decide⟩ List.Forall₂.nil)
